import Mathlib

set_option maxHeartbeats 1000000

/-!
Verification of the Micrawl crawler core (src/crawler.rs, src/config.rs)
against its natural-language specification.

The crawler state and the generation loop of Crawler::crawl are embedded
shallowly: the url crate Url is modelled by the observations the crawler
makes of it (as_str, host_str, domain, path_segments); the network, the
url join operation and the randua user-agent source are an explicit
environment; the tokio fan-out plus join_all barrier of one generation is
modelled by the list of requests handed to join_all followed by in-order
processing of their outcomes (the outcome of a fetch depends only on the
requested url, so the concurrent execution is observationally the same as
this sequential presentation).
-/

/-- Model of a parsed absolute URL (url crate Url), keeping exactly the
observations the crawler makes: the canonical string (as_str), host_str,
domain (none when the host is not a registrable domain, e.g. an IP
address), and path_segments (none for cannot-be-a-base URLs). -/
structure UrlM where
  s : String
  host : Option String
  domain : Option String
  path_segments : Option (List String)
deriving DecidableEq

/-- crawler.rs CrawlResult. -/
structure CrawlResult where
  url : UrlM
  status_code : Option Nat
deriving DecidableEq

/-- crawler.rs CrawlQueueItem. -/
structure CrawlQueueItem where
  url : UrlM
  is_external : Bool
deriving DecidableEq

/-- config.rs ArgCollection, restricted to the fields the crawler reads
(the PathBuf output file and report-only fields play no part in the
claims). -/
structure ArgCollection where
  host : UrlM
  list_external : Bool
  extract_robots_content : Bool
  threads : Nat
deriving DecidableEq

/-- crawler.rs Crawler (start_time and robots_content omitted: wall-clock
time and the robots text do not influence the traversal). -/
structure Crawler where
  queue : List CrawlQueueItem
  crawled_pages : List CrawlResult
  block_list : List UrlM
  config : ArgCollection
deriving DecidableEq

/-- Rust str split on the dot character, collected to a Vec: splits a
character list on the dot, keeping empty pieces, so that for example
splitting "a." gives ["a", ""] and splitting "" gives [""]. -/
def splitDot : List Char → List (List Char)
  | [] => [[]]
  | c :: rest =>
    match splitDot rest with
    | [] => [[]]
    | h :: t => if c = '.' then [] :: h :: t else (c :: h) :: t

/-- crawler.rs is_webpage (lines 376-388), with the Vec index
last_split[1] modelled by the optional lookup: a none result models the
panicking out-of-range branch of the Rust indexing. -/
def is_webpage? (url : UrlM) : Option Bool :=
  match url.path_segments with
  | none => some true
  | some segments =>
    match segments.getLast? with
    | none => some true
    | some last =>
      if last.toList.contains '.' then
        match (splitDot last.toList)[1]? with
        | none => none
        | some tok =>
          if tok ≠ "html".toList ∧ tok ≠ "php".toList then some false else some true
      else some true

/-- Total form of is_webpage used by the traversal model; the theorem
is_webpage_total below shows the defaulted branch is unreachable, which
justifies reading the Rust function as total. -/
def is_webpage (url : UrlM) : Bool :=
  (is_webpage? url).getD false

/-- crawler.rs already_crawled: membership in crawled_pages compared by
as_str. -/
def Crawler.already_crawled (c : Crawler) (url : UrlM) : Bool :=
  c.crawled_pages.any fun elem => elem.url.s == url.s

/-- crawler.rs is_in_queue: membership in the queue compared by as_str. -/
def Crawler.is_in_queue (c : Crawler) (url : UrlM) : Bool :=
  c.queue.any fun elem => elem.url.s == url.s

/-- crawler.rs is_in_blocklist: membership in block_list compared by
as_str. -/
def Crawler.is_in_blocklist (c : Crawler) (url : UrlM) : Bool :=
  c.block_list.any fun elem => elem.s == url.s

/-- crawler.rs should_crawl (lines 362-367). -/
def Crawler.should_crawl (c : Crawler) (url : UrlM) : Bool :=
  !c.already_crawled url && !c.is_in_queue url && !c.is_in_blocklist url && is_webpage url

/-- Rust str contains with a string pattern: the needle occurs in the
haystack as a contiguous substring. -/
def strContains (hay needle : String) : Bool :=
  hay.toList.tails.any fun t => needle.toList.isPrefixOf t

/-- crawler.rs is_same_domain (lines 404-413): substring containment of
the base domain in the candidate domain; false whenever either side has
no domain. -/
def Crawler.is_same_domain (c : Crawler) (url : UrlM) : Bool :=
  match c.config.host.domain with
  | some base_domain =>
    match url.domain with
    | some domain => if strContains domain base_domain then true else false
    | none => false
  | none => false

/-- crawler.rs is_same_host (lines 415-424): exact equality of host
strings; false whenever either side has no host. -/
def Crawler.is_same_host (c : Crawler) (url : UrlM) : Bool :=
  match c.config.host.host with
  | some base_host =>
    match url.host with
    | some host => if base_host == host then true else false
    | none => false
  | none => false

/-- A parsed HTML document, reduced to the observations the crawler makes
through the select crate: the href values of its anchor tags and the
action values of its form tags, in document order. -/
structure Doc where
  anchors : List String
  forms : List String
deriving DecidableEq

/-- Reasons a reqwest request can fail (the commented-out reporting path
distinguishes connect, redirect-policy and timeout failures; the active
loop treats all of them alike). -/
inductive FailReason
  | connectFailed
  | timedOut
  | redirectPolicy
  | other
deriving DecidableEq

/-- Outcome of one GET as the loop observes it: a success carries the
final (post-redirect) url res.url(), the status code, and the body text
parsed to a Doc (none models a res.text() failure); a failure is an Err
from reqwest or from the join handle. -/
inductive FetchOutcome
  | success (finalUrl : UrlM) (status : Nat) (text : Option Doc)
  | failure (reason : FailReason)
deriving DecidableEq

/-- External collaborators of the orchestrator: the network (the outcome
of a GET depends only on the requested url), the url crate join, and the
randua user-agent source (modelled as a fixed string; the claims never
depend on its value). -/
structure Env where
  fetch : UrlM → FetchOutcome
  join : UrlM → String → Option UrlM
  ua : String

/-- An outbound HTTP GET as the code builds it: url, User-Agent header
value, and the optional per-request timeout in seconds. -/
structure Request where
  url : UrlM
  user_agent : String
  timeout_secs : Option Nat
deriving DecidableEq

/-- crawler.rs lines 86-94: the page GET spawned inside the generation
loop carries a User-Agent header and sets no timeout. -/
def page_request (env : Env) (url : UrlM) : Request :=
  { url := url, user_agent := env.ua, timeout_secs := none }

/-- crawler.rs get_robots_content (lines 437-443): the robots.txt GET
carries a User-Agent header and a 10 second timeout. -/
def robots_request (env : Env) (url : UrlM) : Request :=
  { url := url, user_agent := env.ua, timeout_secs := some 10 }

/-- reqwest StatusCode is_success: 2xx. -/
def statusIsSuccess (status : Nat) : Bool :=
  200 ≤ status && status < 300

/-- One href of extract_anchor_hrefs (crawler.rs 323-343): resolve against
the final page url, drop silently on join failure, enqueue when
should_crawl passes and the address is same-domain, same-host or external
listing is enabled; the external mark is computed at discovery time. -/
def anchorStep (env : Env) (base : UrlM) (c : Crawler) (y : String) : Crawler :=
  match env.join base y with
  | none => c
  | some url =>
    if c.should_crawl url then
      if c.is_same_domain url || c.is_same_host url || c.config.list_external then
        { c with queue := c.queue ++
            [{ url := url,
               is_external := !c.is_same_domain url && !c.is_same_host url }] }
      else c
    else c

def Crawler.extract_anchor_hrefs (c : Crawler) (env : Env) (doc : Doc) (base : UrlM) : Crawler :=
  doc.anchors.foldl (anchorStep env base) c

/-- One action of extract_form_actions (crawler.rs 345-360): resolve
against the final page url and record a status-less ledger entry unless
the address is already crawled. -/
def formStep (env : Env) (base : UrlM) (c : Crawler) (y : String) : Crawler :=
  match env.join base y with
  | none => c
  | some url =>
    if !c.already_crawled url then
      { c with crawled_pages := c.crawled_pages ++ [{ url := url, status_code := none }] }
    else c

def Crawler.extract_form_actions (c : Crawler) (env : Env) (doc : Doc) (base : UrlM) : Crawler :=
  doc.forms.foldl (formStep env base) c

/-- Processing of one joined task result (crawler.rs 106-134). An Err from
the join handle and an Err from reqwest are both silently skipped; a
success is recorded under its final (post-redirect) url without any
membership check, and a 2xx same-domain-or-same-host page is parsed and
mined for anchors and form actions. -/
def recordSuccess (c : Crawler) (finalUrl : UrlM) (status : Nat) : Crawler :=
  { c with crawled_pages :=
      c.crawled_pages ++ [{ url := finalUrl, status_code := some status }] }

def successBranch (env : Env) (c : Crawler) (finalUrl : UrlM) (status : Nat)
    (text : Option Doc) : Crawler :=
  if statusIsSuccess status then
    if (recordSuccess c finalUrl status).is_same_domain finalUrl
        || (recordSuccess c finalUrl status).is_same_host finalUrl then
      match text with
      | some doc =>
        (((recordSuccess c finalUrl status).extract_anchor_hrefs env doc
          finalUrl).extract_form_actions env doc finalUrl)
      | none => recordSuccess c finalUrl status
    else recordSuccess c finalUrl status
  else recordSuccess c finalUrl status

def processResult (env : Env) (c : Crawler) (url : UrlM) : Crawler :=
  match env.fetch url with
  | FetchOutcome.failure _ => c
  | FetchOutcome.success finalUrl status text => successBranch env c finalUrl status text

/-- The while-let pop loop of one generation (crawler.rs 73-98). Vec pop
takes the LAST queue element and nothing is pushed onto the queue inside
the loop, so the loop visits queue.reverse; revQ is the not-yet-popped
part in pop order, and the queue the dedup checks observe is
revQ.reverse. An external entry is printed and recorded immediately; an
internal entry passing should_crawl becomes a spawned GET task. -/
def drainRec (env : Env) (cfg : ArgCollection) (crawled : List CrawlResult)
    (block : List UrlM) (tasks : List Request) :
    List CrawlQueueItem → List CrawlResult × List Request
  | [] => (crawled, tasks)
  | current :: restRev =>
    if current.is_external then
      drainRec env cfg (crawled ++ [{ url := current.url, status_code := none }])
        block tasks restRev
    else
      if Crawler.should_crawl
          { queue := restRev.reverse, crawled_pages := crawled,
            block_list := block, config := cfg } current.url then
        drainRec env cfg crawled block (tasks ++ [page_request env current.url]) restRev
      else
        drainRec env cfg crawled block tasks restRev

/-- Draining the whole queue at the start of a generation; returns the
state after the pop loop together with the batch of spawned requests in
spawn order. -/
def Crawler.drainQueue (c : Crawler) (env : Env) : Crawler × List Request :=
  let res := drainRec env c.config c.crawled_pages c.block_list [] c.queue.reverse
  ({ c with queue := [], crawled_pages := res.1 }, res.2)

/-- The generation loop of Crawler::crawl (crawler.rs 66-167) with
explicit fuel (the source loops until the queue empties or a generation
spawns no task); alongside the final state it returns the per-generation
request batches handed to join_all. join_all preserves task order, so the
results are processed in spawn order. -/
def crawlRun (env : Env) : Nat → Crawler → Crawler × List (List Request)
  | 0, c => (c, [])
  | Nat.succ fuel, c =>
    if c.queue.isEmpty then (c, [])
    else
      let drained := c.drainQueue env
      if drained.2.length < 1 then (drained.1, [])
      else
        let next := drained.2.foldl (fun (acc : Crawler) (r : Request) => processResult env acc r.url) drained.1
        let rest := crawlRun env fuel next
        (rest.1, drained.2 :: rest.2)

/-- Crawler::new (crawler.rs 35-53): empty state with the seed enqueued
as a non-external entry. -/
def Crawler.new (cfg : ArgCollection) : Crawler :=
  { queue := [{ url := cfg.host, is_external := false }],
    crawled_pages := [], block_list := [], config := cfg }

/-- Modelled from the spec wording of the webpage filter: the final path
segment passes when it has no dot, and otherwise passes exactly when the
suffix after the LAST dot is html or php. Used only to compare the spec
reading against the implemented heuristic. -/
def looksLikeWebPage_lastDot (url : UrlM) : Bool :=
  match url.path_segments with
  | none => true
  | some segments =>
    match segments.getLast? with
    | none => true
    | some last =>
      if last.toList.contains '.' then
        let suffix := ((splitDot last.toList).getLast?).getD []
        suffix == "html".toList || suffix == "php".toList
      else true

/-- Modelled from the spec wording of the webpage filter, reading the
suffix after the FIRST dot instead. Used only to compare the spec reading
against the implemented heuristic. -/
def looksLikeWebPage_firstDot (url : UrlM) : Bool :=
  match url.path_segments with
  | none => true
  | some segments =>
    match segments.getLast? with
    | none => true
    | some last =>
      if last.toList.contains '.' then
        let suffix := List.intercalate ['.'] ((splitDot last.toList).tail)
        suffix == "html".toList || suffix == "php".toList
      else true

theorem splitDot_ne_nil (l : List Char) : splitDot l ≠ [] := by
  cases l with
  | nil => simp [splitDot]
  | cons c rest =>
    simp only [splitDot]
    cases h : splitDot rest with
    | nil => simp
    | cons hd tl =>
      by_cases hc : c = '.' <;> simp [hc]

theorem two_le_splitDot_length (l : List Char) (h : l.contains '.' = true) :
    2 ≤ (splitDot l).length := by
  induction l with
  | nil => simp [List.contains] at h
  | cons c rest ih =>
    simp only [splitDot]
    cases hs : splitDot rest with
    | nil => exact absurd hs (splitDot_ne_nil rest)
    | cons hd tl =>
      by_cases hc : c = '.'
      · simp [hc]
      · have hmem : '.' = c ∨ '.' ∈ rest := by simpa using h
        rcases hmem with h1 | h2
        · exact absurd h1.symm hc
        · have hrest : rest.contains '.' = true := by simpa using h2
          have := ih hrest
          rw [hs] at this
          simp only [List.length_cons] at this
          simp [hc, List.length_cons]
          omega

theorem is_webpage_total (u : UrlM) : (is_webpage? u).isSome = true := by
  unfold is_webpage?
  split
  · rfl
  · split
    · rfl
    · rename_i segments hseg last hlast
      split
      · rename_i hdot
        split
        · rename_i hidx
          have hlen := two_le_splitDot_length last.toList hdot
          have : (splitDot last.toList).length ≤ 1 := by
            simpa using List.getElem?_eq_none_iff.mp hidx
          omega
        · rename_i tok hidx
          split <;> rfl
      · rfl

theorem foldl_preserve {α β : Type} (step : β → α → β) (P : β → Prop)
    (h : ∀ b a, P b → P (step b a)) :
    ∀ (l : List α) (b : β), P b → P (l.foldl step b) := by
  intro l
  induction l with
  | nil => intro b hb; exact hb
  | cons a l ih => intro b hb; exact ih _ (h b a hb)

theorem any_of_extends {α : Type} (p : α → Bool) (l0 l : List α)
    (h : ∃ t, l = l0 ++ t) (hp : l0.any p = true) : l.any p = true := by
  obtain ⟨t, rfl⟩ := h
  simp [List.any_append, hp]

theorem anchorStep_block (env : Env) (base : UrlM) (c : Crawler) (y : String) :
    (anchorStep env base c y).block_list = c.block_list := by
  unfold anchorStep
  split
  · rfl
  · split
    · split <;> rfl
    · rfl

theorem anchorStep_crawled (env : Env) (base : UrlM) (c : Crawler) (y : String) :
    (anchorStep env base c y).crawled_pages = c.crawled_pages := by
  unfold anchorStep
  split
  · rfl
  · split
    · split <;> rfl
    · rfl

theorem anchorStep_config (env : Env) (base : UrlM) (c : Crawler) (y : String) :
    (anchorStep env base c y).config = c.config := by
  unfold anchorStep
  split
  · rfl
  · split
    · split <;> rfl
    · rfl

theorem formStep_queue (env : Env) (base : UrlM) (c : Crawler) (y : String) :
    (formStep env base c y).queue = c.queue := by
  unfold formStep
  split
  · rfl
  · split <;> rfl

theorem formStep_block (env : Env) (base : UrlM) (c : Crawler) (y : String) :
    (formStep env base c y).block_list = c.block_list := by
  unfold formStep
  split
  · rfl
  · split <;> rfl

theorem formStep_crawled_extends (env : Env) (base : UrlM) (c : Crawler) (y : String) :
    ∃ t, (formStep env base c y).crawled_pages = c.crawled_pages ++ t := by
  unfold formStep
  split
  · exact ⟨[], (List.append_nil _).symm⟩
  · split
    · exact ⟨_, rfl⟩
    · exact ⟨[], (List.append_nil _).symm⟩

theorem extract_anchor_hrefs_block (c : Crawler) (env : Env) (doc : Doc) (base : UrlM) :
    (c.extract_anchor_hrefs env doc base).block_list = c.block_list := by
  unfold Crawler.extract_anchor_hrefs
  refine foldl_preserve (anchorStep env base) (fun x => x.block_list = c.block_list)
    ?_ doc.anchors c rfl
  intro b a hb
  show (anchorStep env base b a).block_list = c.block_list
  rw [anchorStep_block]
  exact hb

theorem extract_anchor_hrefs_crawled (c : Crawler) (env : Env) (doc : Doc) (base : UrlM) :
    (c.extract_anchor_hrefs env doc base).crawled_pages = c.crawled_pages := by
  unfold Crawler.extract_anchor_hrefs
  refine foldl_preserve (anchorStep env base) (fun x => x.crawled_pages = c.crawled_pages)
    ?_ doc.anchors c rfl
  intro b a hb
  show (anchorStep env base b a).crawled_pages = c.crawled_pages
  rw [anchorStep_crawled]
  exact hb

theorem extract_form_actions_queue (c : Crawler) (env : Env) (doc : Doc) (base : UrlM) :
    (c.extract_form_actions env doc base).queue = c.queue := by
  unfold Crawler.extract_form_actions
  refine foldl_preserve (formStep env base) (fun x => x.queue = c.queue)
    ?_ doc.forms c rfl
  intro b a hb
  show (formStep env base b a).queue = c.queue
  rw [formStep_queue]
  exact hb

theorem extract_form_actions_block (c : Crawler) (env : Env) (doc : Doc) (base : UrlM) :
    (c.extract_form_actions env doc base).block_list = c.block_list := by
  unfold Crawler.extract_form_actions
  refine foldl_preserve (formStep env base) (fun x => x.block_list = c.block_list)
    ?_ doc.forms c rfl
  intro b a hb
  show (formStep env base b a).block_list = c.block_list
  rw [formStep_block]
  exact hb

theorem extract_form_actions_crawled_extends (c : Crawler) (env : Env) (doc : Doc) (base : UrlM) :
    ∃ t, (c.extract_form_actions env doc base).crawled_pages = c.crawled_pages ++ t := by
  unfold Crawler.extract_form_actions
  refine foldl_preserve (formStep env base)
    (fun x => ∃ t, x.crawled_pages = c.crawled_pages ++ t) ?_ doc.forms c
    ⟨[], (List.append_nil _).symm⟩
  intro b a hb
  obtain ⟨t, ht⟩ := hb
  obtain ⟨t2, ht2⟩ := formStep_crawled_extends env base b a
  exact ⟨t ++ t2, by rw [ht2, ht, List.append_assoc]⟩

theorem recordSuccess_block (c : Crawler) (finalUrl : UrlM) (status : Nat) :
    (recordSuccess c finalUrl status).block_list = c.block_list := rfl

theorem recordSuccess_queue (c : Crawler) (finalUrl : UrlM) (status : Nat) :
    (recordSuccess c finalUrl status).queue = c.queue := rfl

theorem successBranch_block (env : Env) (c : Crawler) (finalUrl : UrlM)
    (status : Nat) (text : Option Doc) :
    (successBranch env c finalUrl status text).block_list = c.block_list := by
  unfold successBranch
  split
  · split
    · split
      · rw [extract_form_actions_block, extract_anchor_hrefs_block, recordSuccess_block]
      · rfl
    · rfl
  · rfl

theorem successBranch_crawled_extends (env : Env) (c : Crawler) (finalUrl : UrlM)
    (status : Nat) (text : Option Doc) :
    ∃ t, (successBranch env c finalUrl status text).crawled_pages = c.crawled_pages ++ t := by
  unfold successBranch
  have hrec : ∃ t, (recordSuccess c finalUrl status).crawled_pages = c.crawled_pages ++ t :=
    ⟨_, rfl⟩
  split
  · split
    · split
      · rename_i doc
        obtain ⟨t2, ht2⟩ := extract_form_actions_crawled_extends
          ((recordSuccess c finalUrl status).extract_anchor_hrefs env doc finalUrl)
          env doc finalUrl
        rw [ht2, extract_anchor_hrefs_crawled]
        exact ⟨{ url := finalUrl, status_code := some status } :: t2, by
          simp [recordSuccess, List.append_assoc]⟩
      · exact hrec
    · exact hrec
  · exact hrec

theorem processResult_block (env : Env) (c : Crawler) (url : UrlM) :
    (processResult env c url).block_list = c.block_list := by
  unfold processResult
  split
  · rfl
  · exact successBranch_block env c _ _ _

theorem processResult_failure (env : Env) (c : Crawler) (url : UrlM) (reason : FailReason)
    (hf : env.fetch url = FetchOutcome.failure reason) :
    processResult env c url = c := by
  unfold processResult
  simp only [hf]

theorem processResult_success (env : Env) (c : Crawler) (url finalUrl : UrlM)
    (status : Nat) (text : Option Doc)
    (hf : env.fetch url = FetchOutcome.success finalUrl status text) :
    processResult env c url = successBranch env c finalUrl status text := by
  unfold processResult
  simp only [hf]

theorem processResult_crawled_extends (env : Env) (c : Crawler) (url : UrlM) :
    ∃ t, (processResult env c url).crawled_pages = c.crawled_pages ++ t := by
  unfold processResult
  split
  · exact ⟨[], (List.append_nil _).symm⟩
  · exact successBranch_crawled_extends env c _ _ _

theorem drainRec_crawled_extends (env : Env) (cfg : ArgCollection) (block : List UrlM) :
    ∀ (revQ : List CrawlQueueItem) (crawled : List CrawlResult) (tasks : List Request),
      ∃ t, (drainRec env cfg crawled block tasks revQ).1 = crawled ++ t := by
  intro revQ
  induction revQ with
  | nil =>
    intro crawled tasks
    exact ⟨[], (List.append_nil _).symm⟩
  | cons current restRev ih =>
    intro crawled tasks
    unfold drainRec
    split
    · obtain ⟨t, ht⟩ := ih (crawled ++ [{ url := current.url, status_code := none }]) tasks
      exact ⟨{ url := current.url, status_code := none } :: t, by
        rw [ht]; simp [List.append_assoc]⟩
    · split
      · exact ih crawled (tasks ++ [page_request env current.url])
      · exact ih crawled tasks

theorem drainRec_guard (env : Env) (cfg : ArgCollection) (block : List UrlM) (u : UrlM) :
    ∀ (revQ : List CrawlQueueItem) (crawled : List CrawlResult) (tasks : List Request),
      ((crawled.any fun elem => elem.url.s == u.s) = true ∨
        (block.any fun elem => elem.s == u.s) = true) →
      ∀ r ∈ (drainRec env cfg crawled block tasks revQ).2, r ∈ tasks ∨ r.url.s ≠ u.s := by
  intro revQ
  induction revQ with
  | nil =>
    intro crawled tasks hu r hr
    unfold drainRec at hr
    exact Or.inl hr
  | cons current restRev ih =>
    intro crawled tasks hu r hr
    unfold drainRec at hr
    split at hr
    · refine ih _ tasks ?_ r hr
      rcases hu with h1 | h2
      · exact Or.inl (any_of_extends _ _ _ ⟨_, rfl⟩ h1)
      · exact Or.inr h2
    · split at hr
      · rename_i hsc
        simp only [Crawler.should_crawl, Crawler.already_crawled, Crawler.is_in_queue,
          Crawler.is_in_blocklist, Bool.and_eq_true, Bool.not_eq_true'] at hsc
        obtain ⟨⟨⟨ha, hq⟩, hb⟩, hw⟩ := hsc
        have hcur : current.url.s ≠ u.s := by
          intro heq
          rcases hu with h1 | h2
          · rw [heq] at ha
            rw [ha] at h1
            exact Bool.false_ne_true h1
          · rw [heq] at hb
            rw [hb] at h2
            exact Bool.false_ne_true h2
        rcases ih crawled (tasks ++ [page_request env current.url]) hu r hr with hmem | hne
        · rcases List.mem_append.mp hmem with hm1 | hm2
          · exact Or.inl hm1
          · have hre : r = page_request env current.url := by simpa using hm2
            subst hre
            exact Or.inr hcur
        · exact Or.inr hne
      · exact ih crawled tasks hu r hr

theorem drainRec_dispatch_origin (env : Env) (cfg : ArgCollection) (block : List UrlM) :
    ∀ (revQ : List CrawlQueueItem) (crawled : List CrawlResult) (tasks : List Request),
      ∀ r ∈ (drainRec env cfg crawled block tasks revQ).2,
        r ∈ tasks ∨ ∃ item, item ∈ revQ ∧ item.is_external = false ∧ r.url = item.url := by
  intro revQ
  induction revQ with
  | nil =>
    intro crawled tasks r hr
    unfold drainRec at hr
    exact Or.inl hr
  | cons current restRev ih =>
    intro crawled tasks r hr
    unfold drainRec at hr
    split at hr
    · rcases ih _ tasks r hr with hm | ⟨item, hmem, hext, hurl⟩
      · exact Or.inl hm
      · exact Or.inr ⟨item, List.mem_cons_of_mem _ hmem, hext, hurl⟩
    · rename_i hextf
      split at hr
      · rcases ih crawled (tasks ++ [page_request env current.url]) r hr with
          hm | ⟨item, hmem, hext2, hurl⟩
        · rcases List.mem_append.mp hm with hm1 | hm2
          · exact Or.inl hm1
          · have hre : r = page_request env current.url := by simpa using hm2
            subst hre
            refine Or.inr ⟨current, List.mem_cons_self _ _, ?_, rfl⟩
            cases hc : current.is_external with
            | false => rfl
            | true => exact absurd hc hextf
        · exact Or.inr ⟨item, List.mem_cons_of_mem _ hmem, hext2, hurl⟩
      · rcases ih crawled tasks r hr with hm | ⟨item, hmem, hext2, hurl⟩
        · exact Or.inl hm
        · exact Or.inr ⟨item, List.mem_cons_of_mem _ hmem, hext2, hurl⟩

theorem drainRec_external_recorded (env : Env) (cfg : ArgCollection) (block : List UrlM) :
    ∀ (revQ : List CrawlQueueItem) (crawled : List CrawlResult) (tasks : List Request),
      ∀ item ∈ revQ, item.is_external = true →
        ((drainRec env cfg crawled block tasks revQ).1.any fun elem =>
          elem.url.s == item.url.s) = true := by
  intro revQ
  induction revQ with
  | nil =>
    intro crawled tasks item hmem hext
    exact absurd hmem (List.not_mem_nil _)
  | cons current restRev ih =>
    intro crawled tasks item hmem hext
    unfold drainRec
    rcases List.mem_cons.mp hmem with heqi | hmem2
    · subst heqi
      rw [if_pos hext]
      refine any_of_extends _ _ _ (drainRec_crawled_extends env cfg block restRev _ tasks) ?_
      simp
    · split
      · exact ih _ tasks item hmem2 hext
      · split
        · exact ih crawled (tasks ++ [page_request env current.url]) item hmem2 hext
        · exact ih crawled tasks item hmem2 hext

theorem drainRec_timeout_none (env : Env) (cfg : ArgCollection) (block : List UrlM) :
    ∀ (revQ : List CrawlQueueItem) (crawled : List CrawlResult) (tasks : List Request),
      ∀ r ∈ (drainRec env cfg crawled block tasks revQ).2,
        r ∈ tasks ∨ r.timeout_secs = none := by
  intro revQ
  induction revQ with
  | nil =>
    intro crawled tasks r hr
    unfold drainRec at hr
    exact Or.inl hr
  | cons current restRev ih =>
    intro crawled tasks r hr
    unfold drainRec at hr
    split at hr
    · exact ih _ tasks r hr
    · split at hr
      · rcases ih crawled (tasks ++ [page_request env current.url]) r hr with hm | hn
        · rcases List.mem_append.mp hm with hm1 | hm2
          · exact Or.inl hm1
          · have hre : r = page_request env current.url := by simpa using hm2
            subst hre
            exact Or.inr rfl
        · exact Or.inr hn
      · exact ih crawled tasks r hr

theorem should_crawl_config_indep (q : List CrawlQueueItem) (crawled : List CrawlResult)
    (block : List UrlM) (cfg cfg2 : ArgCollection) (u : UrlM) :
    Crawler.should_crawl ⟨q, crawled, block, cfg⟩ u =
      Crawler.should_crawl ⟨q, crawled, block, cfg2⟩ u := rfl

theorem drainRec_config_indep (env : Env) (cfg cfg2 : ArgCollection) (block : List UrlM) :
    ∀ (revQ : List CrawlQueueItem) (crawled : List CrawlResult) (tasks : List Request),
      drainRec env cfg crawled block tasks revQ = drainRec env cfg2 crawled block tasks revQ := by
  intro revQ
  induction revQ with
  | nil => intro crawled tasks; rfl
  | cons current restRev ih =>
    intro crawled tasks
    unfold drainRec
    split
    · exact ih _ tasks
    · rw [should_crawl_config_indep restRev.reverse crawled block cfg cfg2 current.url]
      split
      · exact ih crawled (tasks ++ [page_request env current.url])
      · exact ih crawled tasks

theorem drainQueue_block (c : Crawler) (env : Env) :
    (c.drainQueue env).1.block_list = c.block_list := rfl

theorem drainQueue_queue (c : Crawler) (env : Env) :
    (c.drainQueue env).1.queue = [] := rfl

theorem drainQueue_crawled_extends (c : Crawler) (env : Env) :
    ∃ t, (c.drainQueue env).1.crawled_pages = c.crawled_pages ++ t :=
  drainRec_crawled_extends env c.config c.block_list c.queue.reverse c.crawled_pages []

theorem crawlRun_block (env : Env) :
    ∀ (fuel : Nat) (c : Crawler), (crawlRun env fuel c).1.block_list = c.block_list := by
  intro fuel
  induction fuel with
  | zero => intro c; rfl
  | succ fuel ih =>
    intro c
    simp only [crawlRun]
    split
    · rfl
    · split
      · exact drainQueue_block c env
      · rw [ih]
        refine foldl_preserve (fun (acc : Crawler) (r : Request) => processResult env acc r.url)
          (fun x => x.block_list = c.block_list) ?_ _ _ (drainQueue_block c env)
        intro b r hb
        show (processResult env b r.url).block_list = c.block_list
        rw [processResult_block]
        exact hb

theorem crawlRun_crawled_any (env : Env) (p : CrawlResult → Bool) :
    ∀ (fuel : Nat) (c : Crawler), c.crawled_pages.any p = true →
      (crawlRun env fuel c).1.crawled_pages.any p = true := by
  intro fuel
  induction fuel with
  | zero => intro c h; exact h
  | succ fuel ih =>
    intro c h
    simp only [crawlRun]
    split
    · exact h
    · split
      · exact any_of_extends p _ _ (drainQueue_crawled_extends c env) h
      · refine ih _ ?_
        refine foldl_preserve (fun (acc : Crawler) (r : Request) => processResult env acc r.url)
          (fun x => x.crawled_pages.any p = true) ?_ _ _
          (any_of_extends p _ _ (drainQueue_crawled_extends c env) h)
        intro b r hb
        exact any_of_extends p _ _ (processResult_crawled_extends env b r.url) hb

/-- The uniqueness discipline of the queue: no two entries share an
address string. -/
def queueNoDup (c : Crawler) : Prop :=
  c.queue.Pairwise fun a b => a.url.s ≠ b.url.s

theorem anchorStep_nodup (env : Env) (base : UrlM) (c : Crawler) (y : String)
    (h : queueNoDup c) : queueNoDup (anchorStep env base c y) := by
  unfold queueNoDup at h ⊢
  unfold anchorStep
  split
  · exact h
  · rename_i url hjoin
    split
    · rename_i hsc
      split
      · show (c.queue ++
            [({ url := url,
                is_external := !c.is_same_domain url && !c.is_same_host url } :
              CrawlQueueItem)]).Pairwise
            fun (a b : CrawlQueueItem) => a.url.s ≠ b.url.s
        rw [List.pairwise_append]
        refine ⟨h, List.pairwise_singleton _ _, ?_⟩
        intro a ha b hb
        rw [List.mem_singleton] at hb
        subst hb
        show a.url.s ≠ url.s
        intro heq
        have hq : c.is_in_queue url = false := by
          simp only [Crawler.should_crawl, Bool.and_eq_true, Bool.not_eq_true'] at hsc
          exact hsc.1.1.2
        have hany : c.queue.any (fun elem => elem.url.s == url.s) = true :=
          List.any_eq_true.mpr ⟨a, ha, by simp [heq]⟩
        rw [Crawler.is_in_queue] at hq
        rw [hq] at hany
        exact Bool.false_ne_true hany
      · exact h
    · exact h

theorem formStep_nodup (env : Env) (base : UrlM) (c : Crawler) (y : String)
    (h : queueNoDup c) : queueNoDup (formStep env base c y) := by
  unfold queueNoDup at h ⊢
  rw [formStep_queue]
  exact h

theorem successBranch_nodup (env : Env) (c : Crawler) (finalUrl : UrlM) (status : Nat)
    (text : Option Doc) (h : queueNoDup c) :
    queueNoDup (successBranch env c finalUrl status text) := by
  unfold successBranch
  have hrec : queueNoDup (recordSuccess c finalUrl status) := by
    unfold queueNoDup at h ⊢
    rw [recordSuccess_queue]
    exact h
  split
  · split
    · split
      · rename_i doc
        have h1 : queueNoDup
            ((recordSuccess c finalUrl status).extract_anchor_hrefs env doc finalUrl) := by
          unfold Crawler.extract_anchor_hrefs
          refine foldl_preserve (anchorStep env finalUrl) queueNoDup ?_ doc.anchors _ hrec
          intro b a hb
          exact anchorStep_nodup env finalUrl b a hb
        unfold queueNoDup at h1 ⊢
        rw [extract_form_actions_queue]
        exact h1
      · exact hrec
    · exact hrec
  · exact hrec

theorem processResult_nodup (env : Env) (c : Crawler) (url : UrlM)
    (h : queueNoDup c) : queueNoDup (processResult env c url) := by
  unfold processResult
  split
  · exact h
  · exact successBranch_nodup env c _ _ _ h

theorem crawlRun_nodup (env : Env) :
    ∀ (fuel : Nat) (c : Crawler), queueNoDup c → queueNoDup (crawlRun env fuel c).1 := by
  intro fuel
  induction fuel with
  | zero => intro c h; exact h
  | succ fuel ih =>
    intro c h
    simp only [crawlRun]
    split
    · exact h
    · split
      · unfold queueNoDup
        rw [drainQueue_queue]
        exact List.Pairwise.nil
      · refine ih _ ?_
        refine foldl_preserve (fun (acc : Crawler) (r : Request) => processResult env acc r.url) queueNoDup ?_ _ _ ?_
        · intro b r hb
          exact processResult_nodup env b r.url hb
        · unfold queueNoDup
          rw [drainQueue_queue]
          exact List.Pairwise.nil

def uImagePng : UrlM := ⟨"http://h/image.png", some "h", some "h", some ["image.png"]⟩

def uPageHtml : UrlM := ⟨"http://h/page.html", some "h", some "h", some ["page.html"]⟩

def uScriptPhp : UrlM := ⟨"http://h/script.php", some "h", some "h", some ["script.php"]⟩

def uNoExt : UrlM :=
  ⟨"http://h/no-extension-path", some "h", some "h", some ["no-extension-path"]⟩

def uHtmlGz : UrlM := ⟨"http://h/x.html.gz", some "h", some "h", some ["x.html.gz"]⟩

def uTarGz : UrlM := ⟨"http://h/a.tar.gz", some "h", some "h", some ["a.tar.gz"]⟩

def uTrailDot : UrlM := ⟨"http://h/page.", some "h", some "h", some ["page."]⟩

/-- C9: the claim asserts the split-on-dot heuristic indexes out of range
on a final segment with more than one dot or a trailing dot. At the very
inputs the claim names — a.tar.gz (two dots), a trailing-dot segment, and
x.html.gz — the lookup is in range and the check returns a value (none
would model the panic); the amended theorem extends this to every
address. -/
theorem C9_counterexample :
    is_webpage? uTarGz ≠ none ∧ is_webpage? uTrailDot ≠ none ∧
      is_webpage? uHtmlGz ≠ none := by
  refine ⟨?_, ?_, ?_⟩ <;> decide

/-- C9 amended: the webpage heuristic is total. A final segment with more
than one dot is judged by the token between the first two dots (so
a.tar.gz is rejected on tar while x.html.gz is accepted on html), and a
trailing-dot segment compares the empty token and is rejected; no input
indexes out of range. -/
theorem C9_amended_total :
    (∀ u : UrlM, (is_webpage? u).isSome = true) ∧
    is_webpage? uTarGz = some false ∧
    is_webpage? uTrailDot = some false ∧
    is_webpage? uHtmlGz = some true :=
  ⟨is_webpage_total, by decide, by decide, by decide⟩

/-- C5 counterexample: for the address with final segment x.html.gz the
implemented heuristic passes, although the suffix after the dot (whether
read from the first or from the last dot) is neither html nor php, so the
claimed pass-iff-suffix characterization is false at this input. -/
theorem C5_counterexample :
    is_webpage uHtmlGz = true ∧
    looksLikeWebPage_firstDot uHtmlGz = false ∧
    looksLikeWebPage_lastDot uHtmlGz = false := by
  refine ⟨?_, ?_, ?_⟩ <;> decide

/-- C5 amended: image.png is rejected (and such an address is never
enqueued), page.html, script.php and a dotless segment pass; in general,
when the final segment contains a dot the address passes exactly when the
SECOND split-on-dot token is html or php, which coincides with the
suffix after the dot only for single-dot segments. -/
theorem C5_amended :
    is_webpage uImagePng = false ∧
    is_webpage uPageHtml = true ∧
    is_webpage uScriptPhp = true ∧
    is_webpage uNoExt = true ∧
    (∀ (env : Env) (base : UrlM) (c : Crawler) (y : String) (u : UrlM),
      env.join base y = some u → is_webpage u = false →
      (anchorStep env base c y).queue = c.queue) ∧
    (∀ (u : UrlM) (segments : List String) (last : String),
      u.path_segments = some segments → segments.getLast? = some last →
      last.toList.contains '.' = true →
      (is_webpage u = true ↔
        ((splitDot last.toList)[1]? = some "html".toList ∨
          (splitDot last.toList)[1]? = some "php".toList))) := by
  refine ⟨by decide, by decide, by decide, by decide, ?_, ?_⟩
  · intro env base c y u hjoin hweb
    have hsc : c.should_crawl u = false := by
      unfold Crawler.should_crawl
      rw [hweb]
      simp
    simp [anchorStep, hjoin, hsc]
  · intro u segments last hseg hlast hdot
    simp only [is_webpage, is_webpage?, hseg, hlast, hdot, if_true]
    cases hidx : (splitDot last.toList)[1]? with
    | none =>
      have hlen := two_le_splitDot_length last.toList hdot
      have : (splitDot last.toList).length ≤ 1 := by
        simpa using List.getElem?_eq_none_iff.mp hidx
      omega
    | some tok =>
      by_cases h1 : tok = "html".toList
      · subst h1
        decide
      · by_cases h2 : tok = "php".toList
        · subst h2
          decide
        · have h1b : ¬tok = ['h', 't', 'm', 'l'] := h1
          have h2b : ¬tok = ['p', 'h', 'p'] := h2
          simp [h1b, h2b]

/-- C5 witness: the characterization instantiated at the page.html
address. -/
theorem C5_witness :
    is_webpage uPageHtml = true ↔
      ((splitDot "page.html".toList)[1]? = some "html".toList ∨
        (splitDot "page.html".toList)[1]? = some "php".toList) :=
  C5_amended.2.2.2.2.2 uPageHtml ["page.html"] "page.html" rfl rfl (by decide)

def cfg8 : ArgCollection :=
  ⟨⟨"http://example.com/", some "example.com", some "example.com", some [""]⟩,
   false, false, 10⟩

def c8 : Crawler := Crawler.new cfg8

def u8sub : UrlM :=
  ⟨"http://sub.example.com/", some "sub.example.com", some "sub.example.com", some [""]⟩

/-- C8: same-domain is substring containment of the base domain in the
candidate domain (permissive: a proper superstring such as a subdomain
matches), same-host is exact host-string equality, and an enqueued
discovered address is marked external exactly when neither holds. -/
theorem C8_classifier :
    (∀ (c : Crawler) (u : UrlM) (bd cd : String),
      c.config.host.domain = some bd → u.domain = some cd →
      (c.is_same_domain u = true ↔ strContains cd bd = true)) ∧
    (∀ (c : Crawler) (u : UrlM) (bh ch : String),
      c.config.host.host = some bh → u.host = some ch →
      (c.is_same_host u = true ↔ bh = ch)) ∧
    (c8.is_same_domain u8sub = true ∧ u8sub.domain ≠ c8.config.host.domain) ∧
    (∀ (env : Env) (base : UrlM) (c : Crawler) (y : String),
      (anchorStep env base c y).queue = c.queue ∨
      ∃ u, env.join base y = some u ∧
        (anchorStep env base c y).queue = c.queue ++
          [{ url := u, is_external := !c.is_same_domain u && !c.is_same_host u }]) := by
  refine ⟨?_, ?_, by decide, ?_⟩
  · intro c u bd cd hbd hcd
    simp [Crawler.is_same_domain, hbd, hcd]
  · intro c u bh ch hbh hch
    simp [Crawler.is_same_host, hbh, hch]
  · intro env base c y
    cases hj : env.join base y with
    | none =>
      refine Or.inl ?_
      simp [anchorStep, hj]
    | some u =>
      by_cases hsc : c.should_crawl u = true
      · by_cases hcond : (c.is_same_domain u || c.is_same_host u || c.config.list_external) = true
        · refine Or.inr ⟨u, rfl, ?_⟩
          simp [anchorStep, hj, hsc, hcond]
        · refine Or.inl ?_
          simp [anchorStep, hj, hsc, hcond]
      · refine Or.inl ?_
        simp [anchorStep, hj, hsc]

/-- C8 witness: the characterizations instantiated at the example.com
seed and its subdomain. -/
theorem C8_witness :
    (c8.is_same_domain u8sub = true ↔ strContains "sub.example.com" "example.com" = true) ∧
    (c8.is_same_host u8sub = true ↔ "example.com" = "sub.example.com") :=
  ⟨C8_classifier.1 c8 u8sub "example.com" "sub.example.com" rfl rfl,
   C8_classifier.2.1 c8 u8sub "example.com" "sub.example.com" rfl rfl⟩

/-- C10: when either side lacks a registrable domain (IP-address hosts),
same-domain matching is false, so the external mark computed at discovery
degenerates to the negation of exact host equality. -/
theorem C10_ip_fallback :
    ∀ (c : Crawler) (u : UrlM), c.config.host.domain = none ∨ u.domain = none →
      c.is_same_domain u = false ∧
      (!c.is_same_domain u && !c.is_same_host u) = !c.is_same_host u := by
  intro c u h
  have hsd : c.is_same_domain u = false := by
    rcases h with h1 | h2
    · simp [Crawler.is_same_domain, h1]
    · cases hb : c.config.host.domain with
      | none => simp [Crawler.is_same_domain, hb]
      | some bd => simp [Crawler.is_same_domain, hb, h2]
  refine ⟨hsd, ?_⟩
  rw [hsd]
  simp

def cfgIp : ArgCollection :=
  ⟨⟨"http://1.2.3.4/", some "1.2.3.4", none, some [""]⟩, false, false, 10⟩

def cIp : Crawler := Crawler.new cfgIp

def uIpSame : UrlM := ⟨"http://1.2.3.4/a", some "1.2.3.4", none, some ["a"]⟩

def uIpOther : UrlM := ⟨"http://5.6.7.8/", some "5.6.7.8", none, some [""]⟩

/-- C10 witness: with an IP-address seed, a same-host candidate and a
different-host candidate both have same-domain false, and externality is
decided by host equality alone. -/
theorem C10_witness :
    (cIp.is_same_domain uIpOther = false ∧
      (!cIp.is_same_domain uIpOther && !cIp.is_same_host uIpOther) =
        !cIp.is_same_host uIpOther) ∧
    (cIp.is_same_domain uIpSame = false ∧
      (!cIp.is_same_domain uIpSame && !cIp.is_same_host uIpSame) =
        !cIp.is_same_host uIpSame) :=
  ⟨C10_ip_fallback cIp uIpOther (Or.inl rfl), C10_ip_fallback cIp uIpSame (Or.inl rfl)⟩

theorem nextState_already (env : Env) (c : Crawler) (u : UrlM)
    (h : c.already_crawled u = true) :
    ((c.drainQueue env).2.foldl (fun (acc : Crawler) (r : Request) => processResult env acc r.url)
      (c.drainQueue env).1).already_crawled u = true := by
  refine foldl_preserve _ (fun (x : Crawler) => x.already_crawled u = true) ?_ _ _ ?_
  · intro b r hb
    exact any_of_extends _ _ _ (processResult_crawled_extends env b r.url) hb
  · exact any_of_extends _ _ _ (drainQueue_crawled_extends c env) h

theorem nextState_block (env : Env) (c : Crawler) :
    ((c.drainQueue env).2.foldl (fun (acc : Crawler) (r : Request) => processResult env acc r.url)
      (c.drainQueue env).1).block_list = c.block_list := by
  refine foldl_preserve _ (fun (x : Crawler) => x.block_list = c.block_list) ?_ _ _
    (drainQueue_block c env)
  intro b r hb
  rw [← hb]
  exact processResult_block env b r.url

/-- C3: an address already present in the crawled set or in the block
list is never again handed to the fetch executor in the same run: every
request of every later generation names a different address string, even
if the address is rediscovered. -/
theorem C3_no_refetch (env : Env) (fuel : Nat) (c : Crawler) (u : UrlM)
    (h : c.already_crawled u = true ∨ c.is_in_blocklist u = true) :
    ∀ gen ∈ (crawlRun env fuel c).2, ∀ r ∈ gen, r.url.s ≠ u.s := by
  induction fuel generalizing c with
  | zero =>
    intro gen hgen
    simp [crawlRun] at hgen
  | succ fuel ih =>
    intro gen hgen r hr
    simp only [crawlRun] at hgen
    split at hgen
    · simp at hgen
    · split at hgen
      · simp at hgen
      · simp only [List.mem_cons] at hgen
        rcases hgen with hg1 | hg2
        · subst hg1
          rcases drainRec_guard env c.config c.block_list u c.queue.reverse
            c.crawled_pages [] h r hr with h0 | hne
          · exact absurd h0 (List.not_mem_nil r)
          · exact hne
        · refine ih _ ?_ gen hg2 r hr
          rcases h with h1 | h2
          · exact Or.inl (nextState_already env c u h1)
          · refine Or.inr ?_
            unfold Crawler.is_in_blocklist
            rw [nextState_block env c]
            exact h2

def uW : UrlM := ⟨"http://h/w", some "h", some "h", some ["w"]⟩

def uB3 : UrlM := ⟨"http://h/b3", some "h", some "h", some ["b3"]⟩

def cfg3 : ArgCollection := ⟨uW, false, false, 10⟩

def env3 : Env :=
  ⟨fun _ => FetchOutcome.success uB3 200 (some ⟨[], []⟩), fun _ _ => none, "ua"⟩

def c3st : Crawler := ⟨[⟨uB3, false⟩], [⟨uW, some 200⟩], [], cfg3⟩

/-- C3 witness: a state whose crawled set holds one address runs two
further generations, and the one request its first generation dispatches
names a different address. -/
theorem C3_witness :
    (c3st.already_crawled uW = true ∨ c3st.is_in_blocklist uW = true) ∧
    (page_request env3 uB3).url.s ≠ uW.s :=
  ⟨Or.inl (by decide),
   C3_no_refetch env3 2 c3st uW (Or.inl (by decide)) [page_request env3 uB3] (by decide)
     (page_request env3 uB3) (by decide)⟩

def uA1 : UrlM := ⟨"http://h/a", some "h", some "h", some ["a"]⟩

def uB1 : UrlM := ⟨"http://h/fails", some "h", some "h", some ["fails"]⟩

def uC1x : UrlM := ⟨"http://h/c", some "h", some "h", some ["c"]⟩

def cfg1 : ArgCollection := ⟨uA1, false, false, 10⟩

def env1 : Env :=
  ⟨fun u =>
    if u.s == "http://h/a" then FetchOutcome.success uA1 200 (some ⟨["b", "c"], []⟩)
    else if u.s == "http://h/c" then FetchOutcome.success uC1x 200 (some ⟨["b"], []⟩)
    else FetchOutcome.failure FailReason.connectFailed,
   fun _ y => if y == "b" then some uB1 else if y == "c" then some uC1x else none,
   "ua"⟩

/-- C1: the active loop silently discards failed fetches. In a concrete
run the address at http://h/fails fails with a connect error in the
second generation, yet the block list stays empty for every run (nothing
ever inserts into it), the failed address is never marked crawled, and it
is dispatched AGAIN in the third generation after being rediscovered —
contradicting marking, block-listing and no-retry. -/
theorem C1_failure_ignored :
    (∀ (env : Env) (fuel : Nat) (c : Crawler),
      (crawlRun env fuel c).1.block_list = c.block_list) ∧
    env1.fetch uB1 = FetchOutcome.failure FailReason.connectFailed ∧
    (crawlRun env1 5 (Crawler.new cfg1)).2 =
      [[page_request env1 uA1], [page_request env1 uC1x, page_request env1 uB1],
        [page_request env1 uB1]] ∧
    (crawlRun env1 5 (Crawler.new cfg1)).1.already_crawled uB1 = false ∧
    (crawlRun env1 5 (Crawler.new cfg1)).1.block_list = [] := by
  refine ⟨fun env => crawlRun_block env, rfl, ?_, ?_, ?_⟩ <;> decide

def q20 : List CrawlQueueItem :=
  (List.range 20).map fun n =>
    { url := ⟨"http://h/u" ++ toString n, some "h", some "h", some ["u" ++ toString n]⟩,
      is_external := false }

def cfg2t : ArgCollection := ⟨⟨"http://h/", some "h", some "h", some [""]⟩, false, false, 5⟩

def c20 : Crawler := ⟨q20, [], [], cfg2t⟩

def env2 : Env := ⟨fun _ => FetchOutcome.failure FailReason.other, fun _ _ => none, "ua"⟩

/-- C2: the drain step never consults the configured thread count — its
result is identical under any two configurations — and concretely, with
the limit set to 5 and twenty pending same-generation addresses, twenty
requests are spawned before the join_all barrier, so twenty fetches are
outstanding simultaneously. -/
theorem C2_limit_ignored :
    (∀ (env : Env) (cfg cfg2 : ArgCollection) (block : List UrlM)
      (revQ : List CrawlQueueItem) (crawled : List CrawlResult) (tasks : List Request),
      drainRec env cfg crawled block tasks revQ = drainRec env cfg2 crawled block tasks revQ) ∧
    c20.config.threads = 5 ∧
    (c20.drainQueue env2).2.length = 20 := by
  refine ⟨?_, rfl, ?_⟩
  · intro env cfg cfg2 block revQ crawled tasks
    exact drainRec_config_indep env cfg cfg2 block revQ crawled tasks
  · decide

def uSeed4 : UrlM := ⟨"http://x.com/", some "x.com", some "x.com", some [""]⟩

def uExt4 : UrlM := ⟨"http://other.com/", some "other.com", some "other.com", some [""]⟩

def cfg4off : ArgCollection := ⟨uSeed4, false, false, 10⟩

def cfg4on : ArgCollection := ⟨uSeed4, true, false, 10⟩

def env4 : Env :=
  ⟨fun u =>
    if u.s == "http://x.com/" then FetchOutcome.success uSeed4 200 (some ⟨["e"], []⟩)
    else FetchOutcome.success uExt4 200 (some ⟨[], []⟩),
   fun _ y => if y == "e" then some uExt4 else none, "ua"⟩

/-- C4 counterexample: with the external-inclusion flag off, a discovered
external address is dropped at discovery: after the run it is absent from
the crawled record entirely, while the claim says it is still recorded as
crawled/seen. -/
theorem C4_counterexample :
    (Crawler.new cfg4off).is_same_domain uExt4 = false ∧
    (Crawler.new cfg4off).is_same_host uExt4 = false ∧
    cfg4off.list_external = false ∧
    (crawlRun env4 3 (Crawler.new cfg4off)).1.already_crawled uExt4 = false := by
  refine ⟨?_, ?_, rfl, ?_⟩ <;> decide

/-- C4 amended: external queue entries are never dispatched to the fetch
executor (every spawned request originates from a non-external entry);
every external queue entry is recorded in the ledger when its generation
drains; with the flag off a discovered external address is dropped at
discovery — neither enqueued nor recorded; with the flag on it is
recorded as crawled without ever being fetched. -/
theorem C4_external_handling :
    (∀ (env : Env) (cfg : ArgCollection) (block : List UrlM)
      (revQ : List CrawlQueueItem) (crawled : List CrawlResult) (tasks : List Request),
      ∀ r ∈ (drainRec env cfg crawled block tasks revQ).2,
        r ∈ tasks ∨ ∃ item, item ∈ revQ ∧ item.is_external = false ∧ r.url = item.url) ∧
    (∀ (env : Env) (cfg : ArgCollection) (block : List UrlM)
      (revQ : List CrawlQueueItem) (crawled : List CrawlResult) (tasks : List Request),
      ∀ item ∈ revQ, item.is_external = true →
        ((drainRec env cfg crawled block tasks revQ).1.any fun elem =>
          elem.url.s == item.url.s) = true) ∧
    (∀ (env : Env) (base : UrlM) (c : Crawler) (y : String) (u : UrlM),
      c.config.list_external = false → env.join base y = some u →
      c.is_same_domain u = false → c.is_same_host u = false →
      anchorStep env base c y = c) ∧
    (crawlRun env4 3 (Crawler.new cfg4on)).1.already_crawled uExt4 = true := by
  refine ⟨?_, ?_, ?_, ?_⟩
  · intro env cfg block revQ crawled tasks
    exact drainRec_dispatch_origin env cfg block revQ crawled tasks
  · intro env cfg block revQ crawled tasks
    exact drainRec_external_recorded env cfg block revQ crawled tasks
  · intro env base c y u hflag hjoin hsd hsh
    simp [anchorStep, hjoin, hsd, hsh, hflag]
  · decide

/-- C4 witness: the flag-off drop rule instantiated at the concrete
external discovery. -/
theorem C4_witness :
    anchorStep env4 uSeed4 (Crawler.new cfg4off) "e" = Crawler.new cfg4off :=
  C4_external_handling.2.2.1 env4 uSeed4 (Crawler.new cfg4off) "e" uExt4 rfl (by decide)
    (by decide) (by decide)

def uS6 : UrlM := ⟨"http://h/s", some "h", some "h", some ["s"]⟩

def uP6 : UrlM := ⟨"http://h/p", some "h", some "h", some ["p"]⟩

def uB6 : UrlM := ⟨"http://h/b", some "h", some "h", some ["b"]⟩

def cfg6 : ArgCollection := ⟨uS6, false, false, 10⟩

def env6 : Env :=
  ⟨fun u =>
    if u.s == "http://h/s" then FetchOutcome.success uS6 200 (some ⟨["b", "p"], []⟩)
    else if u.s == "http://h/p" then FetchOutcome.success uP6 200 (some ⟨[], ["b"]⟩)
    else FetchOutcome.success uB6 200 (some ⟨[], []⟩),
   fun _ y => if y == "b" then some uB6 else if y == "p" then some uP6 else none,
   "ua"⟩

/-- C6 counterexample: when a page records a form action for an address
that is fetched in the same generation, the crawled ledger ends the run
with TWO entries for that address (one status-less form record, one
unconditionally appended success record), so an address can appear more
than once in CrawledSet and in the ledger. -/
theorem C6_counterexample :
    ((crawlRun env6 3 (Crawler.new cfg6)).1.crawled_pages.countP fun e =>
      e.url.s == "http://h/b") = 2 := by
  decide

/-- C6 amended: uniqueness holds for the queue — the guarded anchor
insertion never duplicates an enqueued address, and the property is
preserved through every generation — but the crawled ledger itself admits
duplicates, because success results and popped external entries are
appended without a membership check. -/
theorem C6_queue_unique :
    (∀ (env : Env) (base : UrlM) (c : Crawler) (y : String),
      queueNoDup c → queueNoDup (anchorStep env base c y)) ∧
    (∀ (env : Env) (fuel : Nat) (c : Crawler),
      queueNoDup c → queueNoDup (crawlRun env fuel c).1) := by
  constructor
  · intro env base c y h
    exact anchorStep_nodup env base c y h
  · intro env fuel c h
    exact crawlRun_nodup env fuel c h

/-- C6 witness: queue uniqueness carried through the concrete
form-duplicate run. -/
theorem C6_witness : queueNoDup (crawlRun env6 3 (Crawler.new cfg6)).1 :=
  C6_queue_unique.2 env6 3 (Crawler.new cfg6) (List.pairwise_singleton _ _)

/-- C7: no request issued by the generation loop carries a timeout — the
spawned page GET sets none at all — while only the one-shot robots.txt
fetch sets one (10 seconds). The claimed bounded 10–30 second per-request
timeout on regular page fetches is absent. -/
theorem C7_no_page_timeout :
    (∀ (env : Env) (cfg : ArgCollection) (block : List UrlM)
      (revQ : List CrawlQueueItem) (crawled : List CrawlResult),
      ∀ r ∈ (drainRec env cfg crawled block [] revQ).2, r.timeout_secs = none) ∧
    (∀ (env : Env) (u : UrlM), (robots_request env u).timeout_secs = some 10) := by
  constructor
  · intro env cfg block revQ crawled r hr
    rcases drainRec_timeout_none env cfg block revQ crawled [] r hr with h0 | hn
    · exact absurd h0 (List.not_mem_nil r)
    · exact hn
  · intro env u
    rfl

/-- C7 witness: the request spawned for a concrete queued address carries
no timeout. -/
theorem C7_witness :
    (page_request env1 uA1).timeout_secs = none :=
  C7_no_page_timeout.1 env1 cfg1 [] [{ url := uA1, is_external := false }] []
    (page_request env1 uA1) (by decide)
